import Mathlib

/-!
Verification development for the DeviantArt featured-gallery sync tool.

The repository contains two parallel implementations of its core:
`deviant_art_client.py` + `gallery.py` (a class-based refactor) and a
self-contained `main.py`.  Where the two copies of a function agree we embed
the logic once; where they differ we embed both and name them `client_...` /
`gallery_...` versus `main_...`.

Modelling conventions:
- Python dict lookups `d.get(k)` become `Option` fields; Python truthiness of
  a string (`None` or empty string is falsy) and of an integer (`None` or `0`
  is falsy) is made explicit by `truthyStr` / `truthyInt`.
- HTTP servers are scripts: a list of successive responses consumed in order.
  A traversal that would need a response beyond the end of its script returns
  `none` (the Python loop would issue another network call).
- Wall-clock times are embedded as integer seconds and sleep durations as
  natural-number centiseconds (the source uses floats such as `0.35`; the
  doubling arithmetic on these floats is exact, so the scaled integers are a
  faithful embedding of every value the program computes).
-/

/-- Truthiness of an optional string, as Python `if not s`: `None` and the
empty string are falsy. -/
def truthyStr : Option String → Bool
  | none => false
  | some s => !(s == "")

/-- Truthiness of an optional integer, as Python `if not n`: `None` and `0`
are falsy. -/
def truthyInt : Option Int → Bool
  | none => false
  | some n => !(n == 0)

/-! ## Pagination (gallery.py `fetch_all_folders`, main.py `fetch_all_folders`)

Both copies are line-for-line identical:
```
while True:
    page = ...fetch(offset)...
    results = page.get("results", [])
    all_folders.extend(results)
    if not page.get("has_more"): break
    next_offset = page.get("next_offset")
    if next_offset is None: break
    offset = int(next_offset)
```
We embed the server as the list of pages the successive fetches return.
-/

/-- A page of an API listing: `results` (absent key defaults to `[]` in the
source, so a plain list), the truthiness of the `has_more` field (an absent
key is falsy), and the optional `next_offset`. -/
structure Page (α : Type) where
  results : List α
  has_more : Bool
  next_offset : Option Int
deriving Repr, DecidableEq

/-- A page at which the traversal loop stops: `has_more` falsy, or
`next_offset` absent. -/
def Page.terminal {α : Type} (p : Page α) : Bool :=
  !p.has_more || p.next_offset.isNone

/-- `fetch_all_folders` (gallery.py lines 66-79, main.py lines 239-252) run
against a script of pages: accumulate each page's `results`, stop after the
first page with falsy `has_more` or absent `next_offset`.  `none` means the
script ended while the loop still wanted another page. -/
def fetch_all_folders {α : Type} : List (Page α) → Option (List α)
  | [] => none
  | p :: rest =>
    if !p.has_more then some p.results
    else
      match p.next_offset with
      | none => some p.results
      | some _ => (fetch_all_folders rest).map (fun tl => p.results ++ tl)

/-- Claim C1: run against any page script whose pages before the terminal one
all have truthy `has_more` and a present `next_offset`, and whose terminal
page has falsy `has_more` or lacks `next_offset` (either condition stops the
traversal; a missing `next_offset` with `has_more` true is end-of-data, not
an error), `fetch_all_folders` terminates with the in-order concatenation of
the `results` of exactly the pages visited, ignoring any pages beyond the
terminal one. -/
theorem claim_C1 {α : Type} (front : List (Page α)) (last : Page α)
    (rest : List (Page α))
    (hfront : ∀ p ∈ front, p.has_more = true ∧ p.next_offset ≠ none)
    (hlast : last.has_more = false ∨ last.next_offset = none) :
    fetch_all_folders (front ++ last :: rest) =
      some (((front ++ [last]).map Page.results).flatten) := by
  induction front with
  | nil =>
    rw [List.nil_append]
    rcases hm : last.has_more with _ | _
    · simp [fetch_all_folders, hm]
    · rcases hlast with h | h
      · rw [hm] at h; cases h
      · simp [fetch_all_folders, hm, h]
  | cons p front' ih =>
    obtain ⟨hmore, hoff⟩ := hfront p (by simp)
    obtain ⟨v, hv⟩ := Option.ne_none_iff_exists'.mp hoff
    rw [List.cons_append]
    unfold fetch_all_folders
    rw [hmore, hv]
    simp only [Bool.not_true]
    rw [if_neg (by simp)]
    rw [ih (fun q hq => hfront q (by simp [hq]))]
    simp

/-- Concrete instance of claim C1: two non-terminal pages, a third page with
`has_more = true` but no `next_offset` (end-of-data), and a trailing page
that must never be visited. -/
theorem claim_C1_witness :
    (∀ p ∈ [Page.mk [1, 2] true (some 50), Page.mk [3] true (some 100)],
        p.has_more = true ∧ p.next_offset ≠ none) ∧
      ((Page.mk ([4, 5] : List Nat) true none).has_more = false ∨
        (Page.mk ([4, 5] : List Nat) true none).next_offset = none) ∧
      fetch_all_folders
          ([Page.mk [1, 2] true (some 50), Page.mk [3] true (some 100)] ++
            Page.mk [4, 5] true none :: [Page.mk [99] false none]) =
        some [1, 2, 3, 4, 5] :=
  ⟨by decide, by decide,
    by rw [claim_C1 [Page.mk [1, 2] true (some 50), Page.mk [3] true (some 100)]
        (Page.mk [4, 5] true none) [Page.mk [99] false none]
        (by decide) (by decide)]
       decide⟩

/-! ## Batching (gallery.py `chunked`, main.py `chunked`)

`for i in range(0, len(items), n): yield items[i : i + n]` — identical in
both copies.  `range` with step `0` raises in Python; the source only calls
`chunked` with `n = 24`, and the embedding returns `[]` for `n = 0`. -/

/-- `chunked(items, n)`: the slice `items[i : i + n]` for each
`i in range(0, len(items), n)`; that range enumerates
`0, n, 2n, ...` and has `⌈len(items) / n⌉` elements. -/
def chunked {α : Type} (items : List α) (n : Nat) : List (List α) :=
  if n = 0 then []
  else (List.range ((items.length + n - 1) / n)).map
    (fun k => (items.drop (k * n)).take n)

lemma chunked_nil {α : Type} (n : Nat) : chunked ([] : List α) n = [] := by
  unfold chunked
  split
  · rfl
  · have : (n - 1) / n = 0 := Nat.div_eq_of_lt (by omega)
    simp [this]

lemma chunked_cons {α : Type} (items : List α) (n : Nat) (h : 0 < n)
    (hne : items ≠ []) :
    chunked items n = items.take n :: chunked (items.drop n) n := by
  have hn : n ≠ 0 := by omega
  have hL : 0 < items.length := List.length_pos.mpr hne
  unfold chunked
  rw [if_neg hn, if_neg hn]
  have key : (items.length + n - 1) / n = ((items.drop n).length + n - 1) / n + 1 := by
    rw [List.length_drop]
    rcases le_or_lt items.length n with h1 | h1
    · have e1 : items.length + n - 1 = (items.length - 1) + n := by omega
      have e2 : items.length - n + n - 1 = n - 1 := by omega
      rw [e1, e2, Nat.add_div_right _ h, Nat.div_eq_of_lt (by omega),
        Nat.div_eq_of_lt (by omega)]
    · have e1 : items.length + n - 1 = (items.length - n + n - 1) + n := by omega
      rw [e1, Nat.add_div_right _ h]
  rw [key, List.range_succ_eq_map, List.map_cons, List.map_map]
  simp only [Nat.zero_mul, List.drop_zero]
  congr 1
  apply List.map_congr_left
  intro k _
  simp only [Function.comp_apply, List.drop_drop, Nat.succ_mul]
  congr 2
  omega

lemma chunked_flatten_bounded {α : Type} (n : Nat) (h : 0 < n) :
    ∀ (fuel : Nat) (items : List α), items.length ≤ fuel →
      (chunked items n).flatten = items := by
  intro fuel
  induction fuel with
  | zero =>
    intro items hlen
    have : items = [] := List.length_eq_zero.mp (by omega)
    rw [this, chunked_nil]
    rfl
  | succ m ih =>
    intro items hlen
    rcases items with _ | ⟨a, as⟩
    · rw [chunked_nil]; rfl
    · rw [chunked_cons _ n h (by simp), List.flatten_cons,
        ih _ (by simp only [List.length_drop, List.length_cons]; simp at hlen; omega),
        List.take_append_drop]

lemma chunked_flatten {α : Type} (items : List α) (n : Nat) (h : 0 < n) :
    (chunked items n).flatten = items :=
  chunked_flatten_bounded n h items.length items le_rfl

lemma chunked_mem_length_le {α : Type} (items : List α) (n : Nat) (h : 0 < n)
    (c : List α) (hc : c ∈ chunked items n) : c.length ≤ n := by
  unfold chunked at hc
  rw [if_neg (by omega)] at hc
  obtain ⟨k, _, rfl⟩ := List.mem_map.mp hc
  exact List.length_take_le n _

lemma chunked_ne_nil_cons {α : Type} (a : α) (as : List α) (n : Nat) (h : 0 < n) :
    chunked (a :: as) n ≠ [] := by
  rw [chunked_cons _ n h (by simp)]
  simp

lemma chunked_dropLast_bounded {α : Type} (n : Nat) (h : 0 < n) :
    ∀ (fuel : Nat) (items : List α) (c : List α),
      items.length ≤ fuel → c ∈ (chunked items n).dropLast → c.length = n := by
  intro fuel
  induction fuel with
  | zero =>
    intro items c hlen hc
    have : items = [] := List.length_eq_zero.mp (by omega)
    rw [this, chunked_nil] at hc
    cases hc
  | succ m ih =>
    intro items c hlen hc
    rcases items with _ | ⟨a, as⟩
    · rw [chunked_nil] at hc; cases hc
    · rw [chunked_cons _ n h (by simp)] at hc
      rcases hd : as.drop (n - 1) with _ | ⟨b, bs⟩
      · have hnil : chunked ((a :: as).drop n) n = [] := by
          have : (a :: as).drop n = [] := by
            have hn' : n = (n - 1) + 1 := by omega
            rw [hn', List.drop_succ_cons, hd]
          rw [this, chunked_nil]
        rw [hnil] at hc
        cases hc
      · have hne2 : (a :: as).drop n ≠ [] := by
          have hn' : n = (n - 1) + 1 := by omega
          rw [hn', List.drop_succ_cons, hd]
          simp
        obtain ⟨b', bs', he⟩ : ∃ b' bs', (a :: as).drop n = b' :: bs' :=
          List.exists_cons_of_ne_nil hne2
        have : chunked ((a :: as).drop n) n ≠ [] := by
          rw [he]; exact chunked_ne_nil_cons b' bs' n h
        rw [List.dropLast_cons_of_ne_nil this] at hc
        cases hc with
        | head =>
          have hlen2 : n ≤ (a :: as).length := by
            by_contra hlt
            exact hne2 (List.drop_eq_nil_of_le (by omega))
          simp only [List.length_cons] at hlen2
          simp only [List.length_take, List.length_cons]
          omega
        | tail _ htl =>
          refine ih _ c ?_ htl
          simp only [List.length_drop, List.length_cons]
          simp at hlen
          omega

lemma chunked_dropLast_length {α : Type} (items : List α) (n : Nat) (h : 0 < n)
    (c : List α) (hc : c ∈ (chunked items n).dropLast) : c.length = n :=
  chunked_dropLast_bounded n h items.length items c le_rfl hc

/-- Claim C9: `chunked(items, 24)` partitions the input into consecutive
batches whose in-order concatenation equals the input, each of size at most
24, all but possibly the last of size exactly 24; and chunking 50 ids at 24
yields exactly 3 batches of sizes [24, 24, 2]. -/
theorem claim_C9 (items : List Nat) (n : Nat) (h : 0 < n) :
    (chunked items n).flatten = items ∧
    (∀ c ∈ chunked items n, c.length ≤ n) ∧
    (∀ c ∈ (chunked items n).dropLast, c.length = n) ∧
    (chunked (List.range 50) 24).map List.length = [24, 24, 2] := by
  refine ⟨chunked_flatten items n h, fun c hc => chunked_mem_length_le items n h c hc,
    fun c hc => chunked_dropLast_length items n h c hc, ?_⟩
  decide

/-- Concrete instance of claim C9 at `items = range 7`, `n = 3`. -/
theorem claim_C9_witness :
    (0 < 3) ∧
      ((chunked (List.range 7) 3).flatten = List.range 7 ∧
        (∀ c ∈ chunked (List.range 7) 3, c.length ≤ 3) ∧
        (∀ c ∈ (chunked (List.range 7) 3).dropLast, c.length = 3) ∧
        (chunked (List.range 50) 24).map List.length = [24, 24, 2]) :=
  ⟨by decide, claim_C9 (List.range 7) 3 (by decide)⟩

/-! ## Favourites aggregation

gallery.py `fetch_all_deviations_across_folders` (lines 82-128) and main.py
`fetch_all_deviations_across_folders` (lines 255-294).  The two copies share
the paging loop, the per-folder cap, and the max-aggregation
`favs_by_deviation[did] = max(favs_by_deviation.get(did, 0), favs)`, but
only the gallery.py copy filters on `published_time` (missing timestamp, or
timestamp before one year ago): the main.py copy has no date handling at
all.  The recency cutoff `datetime(today.year - 1, today.month, today.day)`
is embedded as its epoch-second value `cutoff`, and the comparison
`datetime.fromtimestamp(int(ts)) < one_year_ago` as the equivalent
epoch-second comparison `ts < cutoff` (`fromtimestamp` is monotone). -/

/-- A deviation item as read from a page's `results`: the optional
`published_time`, the optional `deviationid`, and `stats.favourites`, where
`none` covers a missing or null `stats` object as well as a missing or null
`favourites` field (all of which the source collapses to `0` through
`int(((dev.get("stats") or {}).get("favourites")) or 0)`). -/
structure Deviation where
  published_time : Option Int
  deviationid : Option String
  favourites : Option Int
deriving Repr, DecidableEq

/-- The running `favs_by_deviation` dict, as a map from deviation id to its
stored count (`none` = key absent). -/
def FavMap : Type := String → Option Int

/-- The empty dict `{}`. -/
def emptyFavMap : FavMap := fun _ => none

/-- `favs_by_deviation[did] = max(favs_by_deviation.get(did, 0), favs)`. -/
def updateMax (m : FavMap) (did : String) (favs : Int) : FavMap :=
  fun x => if x = did then some (max ((m did).getD 0) favs) else m x

/-- Per-item body of the gallery.py loop (lines 100-114): skip when
`published_time` is falsy, skip when `deviationid` is falsy, skip when the
publish instant is before the one-year cutoff, else fold in the favourites
count. -/
def galleryItemStep (cutoff : Int) (m : FavMap) (dev : Deviation) : FavMap :=
  if !truthyInt dev.published_time then m
  else if !truthyStr dev.deviationid then m
  else if dev.published_time.getD 0 < cutoff then m
  else updateMax m (dev.deviationid.getD "") (dev.favourites.getD 0)

/-- Per-item body of the main.py loop (lines 273-280): skip only when
`deviationid` is falsy; no date handling. -/
def mainItemStep (m : FavMap) (dev : Deviation) : FavMap :=
  if !truthyStr dev.deviationid then m
  else updateMax m (dev.deviationid.getD "") (dev.favourites.getD 0)

/-- `per_folder_limit_cap is not None and fetched_in_folder >= cap`. -/
def capReached (cap : Option Nat) (fetched : Nat) : Bool :=
  match cap with
  | none => false
  | some c => c ≤ fetched

/-- The per-folder `while True` paging loop shared by both copies
(gallery.py lines 97-126, main.py lines 270-292), run against the script of
pages the successive fetches for this folder return: fold the step function
over each page's `results`, stop once the cap is reached, `has_more` is
falsy, or `next_offset` is absent.  `none` means the script ended while the
loop still wanted another page. -/
def folderLoop (step : FavMap → Deviation → FavMap) (cap : Option Nat) :
    List (Page Deviation) → Nat → FavMap → Option FavMap
  | [], _, _ => none
  | p :: rest, fetched, m =>
    let m' := p.results.foldl step m
    let fetched' := fetched + p.results.length
    if capReached cap fetched' then some m'
    else if !p.has_more then some m'
    else
      match p.next_offset with
      | none => some m'
      | some _ => folderLoop step cap rest fetched' m'

/-- gallery.py `fetch_all_deviations_across_folders`: for each folder id in
order, run the paging loop with the recency-filtering item step, starting
from the empty dict.  `env` maps a folder id to the script of pages its
fetches return. -/
def gallery_fetch_all_deviations_across_folders
    (env : String → List (Page Deviation)) (cutoff : Int)
    (folderids : List String) (cap : Option Nat) : Option FavMap :=
  folderids.foldlM
    (fun m fid => folderLoop (galleryItemStep cutoff) cap (env fid) 0 m)
    emptyFavMap

/-- main.py `fetch_all_deviations_across_folders`: identical loop, but with
the item step that applies no date filtering. -/
def main_fetch_all_deviations_across_folders
    (env : String → List (Page Deviation))
    (folderids : List String) (cap : Option Nat) : Option FavMap :=
  folderids.foldlM
    (fun m fid => folderLoop mainItemStep cap (env fid) 0 m)
    emptyFavMap

/-- The gallery.py item filter, packaged as a predicate: truthy timestamp,
truthy id, and publish instant not before the cutoff. -/
def galleryPasses (cutoff : Int) (dev : Deviation) : Bool :=
  truthyInt dev.published_time && truthyStr dev.deviationid &&
    !(decide (dev.published_time.getD 0 < cutoff))

/-- The main.py item filter: only a truthy id. -/
def mainPasses (dev : Deviation) : Bool :=
  truthyStr dev.deviationid

/-- Common shape of both per-item steps: if the filter passes, fold the
favourites count into the running max for the id. -/
def stepOf (passes : Deviation → Bool) (m : FavMap) (dev : Deviation) : FavMap :=
  if passes dev then updateMax m (dev.deviationid.getD "") (dev.favourites.getD 0)
  else m

lemma galleryItemStep_eq (cutoff : Int) :
    galleryItemStep cutoff = stepOf (galleryPasses cutoff) := by
  funext m dev
  unfold galleryItemStep stepOf galleryPasses
  by_cases h3 : dev.published_time.getD 0 < cutoff <;>
    rcases h1 : truthyInt dev.published_time with _ | _ <;>
    rcases h2 : truthyStr dev.deviationid with _ | _ <;>
    simp [h1, h2, h3]

lemma mainItemStep_eq : mainItemStep = stepOf mainPasses := by
  funext m dev
  unfold mainItemStep stepOf mainPasses
  rcases h : truthyStr dev.deviationid with _ | _ <;> simp [h]

lemma stepOf_grows (passes : Deviation → Bool) (m : FavMap) (dev : Deviation)
    (d : String) (v : Int) (h : m d = some v) :
    ∃ w, stepOf passes m dev d = some w ∧ v ≤ w := by
  unfold stepOf updateMax
  split
  · by_cases hd : d = dev.deviationid.getD ""
    · refine ⟨max ((m (dev.deviationid.getD "")).getD 0) (dev.favourites.getD 0),
        by simp [hd], ?_⟩
      rw [← hd, h]
      exact le_max_of_le_left (by simp)
    · exact ⟨v, by simp [hd, h], le_rfl⟩
  · exact ⟨v, h, le_rfl⟩

lemma foldl_grows (passes : Deviation → Bool) :
    ∀ (items : List Deviation) (m : FavMap) (d : String) (v : Int),
      m d = some v → ∃ w, (items.foldl (stepOf passes) m) d = some w ∧ v ≤ w := by
  intro items
  induction items with
  | nil => exact fun m d v h => ⟨v, h, le_rfl⟩
  | cons dev rest ih =>
    intro m d v h
    obtain ⟨w, hw, hvw⟩ := stepOf_grows passes m dev d v h
    obtain ⟨u, hu, hwu⟩ := ih (stepOf passes m dev) d w hw
    exact ⟨u, by simpa using hu, le_trans hvw hwu⟩

/-- Every passing item of `items` already has a stored count at least its
own favourites count in `m`. -/
def covered (passes : Deviation → Bool) (m : FavMap) (items : List Deviation) : Prop :=
  ∀ dev ∈ items, passes dev = true →
    ∃ v, m (dev.deviationid.getD "") = some v ∧ dev.favourites.getD 0 ≤ v

lemma stepOf_self_covered (passes : Deviation → Bool) (m : FavMap) (dev : Deviation)
    (h : passes dev = true) :
    ∃ v, stepOf passes m dev (dev.deviationid.getD "") = some v ∧
      dev.favourites.getD 0 ≤ v := by
  unfold stepOf updateMax
  rw [if_pos h]
  exact ⟨max ((m (dev.deviationid.getD "")).getD 0) (dev.favourites.getD 0),
    by simp, le_max_right _ _⟩

lemma covered_foldl_self (passes : Deviation → Bool) :
    ∀ (items : List Deviation) (m : FavMap),
      covered passes (items.foldl (stepOf passes) m) items := by
  intro items
  induction items with
  | nil => intro m dev hdev; cases hdev
  | cons dev0 rest ih =>
    intro m dev hdev hp
    simp only [List.foldl_cons]
    rcases List.mem_cons.mp hdev with heq | hmem
    · subst heq
      obtain ⟨v, hv, hle⟩ := stepOf_self_covered passes m dev hp
      obtain ⟨w, hw, hvw⟩ := foldl_grows passes rest _ _ v hv
      exact ⟨w, hw, le_trans hle hvw⟩
    · exact ih (stepOf passes m dev0) dev hmem hp

lemma covered_preserved (passes : Deviation → Bool) (extra : List Deviation)
    (m : FavMap) (items : List Deviation) (h : covered passes m items) :
    covered passes (extra.foldl (stepOf passes) m) items := by
  intro dev hdev hp
  obtain ⟨v, hv, hle⟩ := h dev hdev hp
  obtain ⟨w, hw, hvw⟩ := foldl_grows passes extra m _ v hv
  exact ⟨w, hw, le_trans hle hvw⟩

lemma stepOf_noop (passes : Deviation → Bool) (m : FavMap) (dev : Deviation)
    (h : passes dev = true →
      ∃ v, m (dev.deviationid.getD "") = some v ∧ dev.favourites.getD 0 ≤ v) :
    stepOf passes m dev = m := by
  unfold stepOf
  split
  · next hp =>
    obtain ⟨v, hv, hle⟩ := h hp
    funext x
    unfold updateMax
    by_cases hx : x = dev.deviationid.getD ""
    · rw [if_pos hx, hx, hv]
      simp only [Option.getD_some]
      rw [max_eq_left hle]
    · rw [if_neg hx]
  · rfl

lemma foldl_noop_of_covered (passes : Deviation → Bool) :
    ∀ (items : List Deviation) (m : FavMap), covered passes m items →
      items.foldl (stepOf passes) m = m := by
  intro items
  induction items with
  | nil => intro m _; rfl
  | cons dev rest ih =>
    intro m h
    have h0 : stepOf passes m dev = m := stepOf_noop passes m dev (h dev (by simp))
    simp only [List.foldl_cons, h0]
    exact ih m (fun dev' hd hp => h dev' (by simp [hd]) hp)

lemma foldl_stepOf_idem (passes : Deviation → Bool) (items : List Deviation)
    (m : FavMap) :
    items.foldl (stepOf passes) (items.foldl (stepOf passes) m) =
      items.foldl (stepOf passes) m :=
  foldl_noop_of_covered passes items _ (covered_foldl_self passes items m)

/-- The items the per-folder paging loop visits: the concatenation of the
`results` of the pages up to its stopping point (cap reached, `has_more`
falsy, or `next_offset` absent), or `none` when the script runs out. -/
def visitedItems (cap : Option Nat) : List (Page Deviation) → Nat → Option (List Deviation)
  | [], _ => none
  | p :: rest, fetched =>
    if capReached cap (fetched + p.results.length) then some p.results
    else if !p.has_more then some p.results
    else
      match p.next_offset with
      | none => some p.results
      | some _ =>
        (visitedItems cap rest (fetched + p.results.length)).map
          (fun tl => p.results ++ tl)

lemma folderLoop_eq_visited (step : FavMap → Deviation → FavMap) (cap : Option Nat) :
    ∀ (ps : List (Page Deviation)) (fetched : Nat) (m : FavMap),
      folderLoop step cap ps fetched m =
        (visitedItems cap ps fetched).map (fun items => items.foldl step m) := by
  intro ps
  induction ps with
  | nil => intro fetched m; rfl
  | cons p rest ih =>
    intro fetched m
    simp only [folderLoop, visitedItems]
    by_cases h1 : capReached cap (fetched + p.results.length) = true
    · simp [h1]
    · rw [Bool.not_eq_true] at h1
      rcases hm : p.has_more with _ | _
      · simp [h1, hm]
      · rcases ho : p.next_offset with _ | v
        · simp [h1, hm, ho]
        · simp only [h1, hm, ho, Bool.false_eq_true, if_false, Bool.not_true]
          rw [ih]
          rcases hv : visitedItems cap rest (fetched + p.results.length) with _ | items
          · rfl
          · simp [List.foldl_append]

/-- The items visited across a list of folder ids: per-folder visited items,
concatenated in folder order. -/
def gatherVisited (env : String → List (Page Deviation)) (cap : Option Nat) :
    List String → Option (List Deviation)
  | [] => some []
  | fid :: rest =>
    match visitedItems cap (env fid) 0 with
    | none => none
    | some items => (gatherVisited env cap rest).map (fun tl => items ++ tl)

lemma run_eq_gather (step : FavMap → Deviation → FavMap)
    (env : String → List (Page Deviation)) (cap : Option Nat) :
    ∀ (ids : List String) (m : FavMap),
      ids.foldlM (fun m fid => folderLoop step cap (env fid) 0 m) m =
        (gatherVisited env cap ids).map (fun items => items.foldl step m) := by
  intro ids
  induction ids with
  | nil => intro m; rfl
  | cons fid rest ih =>
    intro m
    rw [List.foldlM_cons, folderLoop_eq_visited]
    rcases hv : visitedItems cap (env fid) 0 with _ | items
    · simp [gatherVisited, hv]
    · simp only [gatherVisited, hv, Option.map_some']
      rw [show ((some (items.foldl step m) >>= fun b =>
          List.foldlM (fun m fid => folderLoop step cap (env fid) 0 m) b rest) =
          List.foldlM (fun m fid => folderLoop step cap (env fid) 0 m)
            (items.foldl step m) rest) from rfl]
      rw [ih]
      rcases gatherVisited env cap rest with _ | tl
      · rfl
      · simp [List.foldl_append]

/-- The favourites counts of the occurrences of id `d` among `items` that
pass the filter, in order. -/
def relevantFavs (passes : Deviation → Bool) (d : String) (items : List Deviation) :
    List Int :=
  (items.filter (fun dev => passes dev && (dev.deviationid.getD "" == d))).map
    (fun dev => dev.favourites.getD 0)

lemma foldl_stepOf_apply (passes : Deviation → Bool) :
    ∀ (items : List Deviation) (m : FavMap) (d : String),
      (items.foldl (stepOf passes) m) d =
        (relevantFavs passes d items).foldl
          (fun acc f => some (max (acc.getD 0) f)) (m d) := by
  intro items
  induction items with
  | nil => intro m d; rfl
  | cons dev rest ih =>
    intro m d
    simp only [List.foldl_cons]
    rcases hp : passes dev with _ | _
    · have hstep : stepOf passes m dev = m := by unfold stepOf; rw [hp]; simp
      have hrel : relevantFavs passes d (dev :: rest) = relevantFavs passes d rest := by
        unfold relevantFavs
        rw [List.filter_cons_of_neg (by simp [hp])]
      rw [hstep, hrel, ih]
    · by_cases hd : dev.deviationid.getD "" = d
      · have hstep : stepOf passes m dev d =
            some (max ((m d).getD 0) (dev.favourites.getD 0)) := by
          unfold stepOf updateMax
          rw [if_pos hp, if_pos hd.symm, hd]
        have hrel : relevantFavs passes d (dev :: rest) =
            dev.favourites.getD 0 :: relevantFavs passes d rest := by
          unfold relevantFavs
          rw [List.filter_cons_of_pos (by simp [hp, hd])]
          rfl
        rw [hrel, ih, List.foldl_cons, hstep]
      · have hstep : stepOf passes m dev d = m d := by
          unfold stepOf updateMax
          rw [if_pos hp, if_neg (fun hc => hd hc.symm)]
        have hrel : relevantFavs passes d (dev :: rest) = relevantFavs passes d rest := by
          unfold relevantFavs
          rw [List.filter_cons_of_neg (by simp [hp, hd])]
        rw [hrel, ih, hstep]

lemma scalar_fold_max :
    ∀ (fs : List Int) (a : Option Int),
      fs.foldl (fun acc f => some (max (acc.getD 0) f)) a =
        if fs = [] then a else some (fs.foldl max (a.getD 0)) := by
  intro fs
  induction fs with
  | nil => intro a; rfl
  | cons f rest ih =>
    intro a
    rw [List.foldl_cons, ih]
    by_cases h : rest = []
    · simp [h]
    · simp [h, List.cons_ne_nil]

lemma gather_append (env : String → List (Page Deviation)) (cap : Option Nat) :
    ∀ (l1 l2 : List String),
      gatherVisited env cap (l1 ++ l2) =
        (gatherVisited env cap l1).bind
          (fun i1 => (gatherVisited env cap l2).map (fun i2 => i1 ++ i2)) := by
  intro l1
  induction l1 with
  | nil =>
    intro l2
    simp only [List.nil_append, gatherVisited, Option.some_bind]
    rcases gatherVisited env cap l2 with _ | i2 <;> simp
  | cons fid l1' ih =>
    intro l2
    rw [List.cons_append]
    simp only [gatherVisited]
    rcases hv : visitedItems cap (env fid) 0 with _ | items
    · rfl
    · rw [ih]
      rcases gatherVisited env cap l1' with _ | i1
      · rfl
      · rcases gatherVisited env cap l2 with _ | i2 <;>
          simp [List.append_assoc]


lemma foldlM_dup (passes : Deviation → Bool) (env : String → List (Page Deviation))
    (cap : Option Nat) :
    ∀ (ids1 ids2 ids3 : List String) (f : String) (m : FavMap),
      (ids1 ++ (f :: (ids2 ++ (f :: ids3)))).foldlM
          (fun m fid => folderLoop (stepOf passes) cap (env fid) 0 m) m =
        (ids1 ++ (f :: (ids2 ++ ids3))).foldlM
          (fun m fid => folderLoop (stepOf passes) cap (env fid) 0 m) m := by
  intro ids1
  induction ids1 with
  | nil =>
    intro ids2 ids3 f m
    simp only [List.nil_append, List.foldlM_cons]
    rcases hload : folderLoop (stepOf passes) cap (env f) 0 m with _ | m1
    · rfl
    · rw [folderLoop_eq_visited] at hload
      rcases hvf : visitedItems cap (env f) 0 with _ | F
      · rw [hvf] at hload; cases hload
      · rw [hvf, Option.map_some'] at hload
        have hm1 : m1 = F.foldl (stepOf passes) m :=
          ((Option.some.injEq _ _).mp hload).symm
        show (ids2 ++ f :: ids3).foldlM
            (fun m fid => folderLoop (stepOf passes) cap (env fid) 0 m) m1 =
          (ids2 ++ ids3).foldlM
            (fun m fid => folderLoop (stepOf passes) cap (env fid) 0 m) m1
        rw [run_eq_gather, run_eq_gather, gather_append, gather_append]
        rcases g2 : gatherVisited env cap ids2 with _ | I2
        · rfl
        · simp only [Option.some_bind, gatherVisited, hvf]
          rcases g3 : gatherVisited env cap ids3 with _ | I3
          · rfl
          · simp only [Option.map_some', List.foldl_append]
            have hcov : covered passes (I2.foldl (stepOf passes) m1) F := by
              apply covered_preserved
              rw [hm1]
              exact covered_foldl_self passes F m
            rw [foldl_noop_of_covered passes F _ hcov]
  | cons fid ids1' ih =>
    intro ids2 ids3 f m
    rw [List.cons_append, List.cons_append, List.foldlM_cons, List.foldlM_cons]
    rcases hload : folderLoop (stepOf passes) cap (env fid) 0 m with _ | m'
    · rfl
    · show (ids1' ++ (f :: (ids2 ++ (f :: ids3)))).foldlM
          (fun m fid => folderLoop (stepOf passes) cap (env fid) 0 m) m' =
        (ids1' ++ (f :: (ids2 ++ ids3))).foldlM
          (fun m fid => folderLoop (stepOf passes) cap (env fid) 0 m) m'
      exact ih ids2 ids3 f m'

/-- Claim C8 (amended only in presentation, the content the claim states):
the gallery aggregation (1) is idempotent under a duplicated folder id
anywhere in the input list; (2) maps each id `d` to the maximum favourites
count over all passing occurrences of `d` among the visited items (absent
when there is no occurrence, and never below the `0` that `dict.get(did, 0)`
seeds); and (3) on two folders holding the same deviation with counts 5 and
9, returns 9 for it. -/
theorem claim_C8 :
    (∀ (env : String → List (Page Deviation)) (cutoff : Int) (cap : Option Nat)
        (ids1 ids2 ids3 : List String) (f : String),
      gallery_fetch_all_deviations_across_folders env cutoff
          (ids1 ++ (f :: (ids2 ++ (f :: ids3)))) cap =
        gallery_fetch_all_deviations_across_folders env cutoff
          (ids1 ++ (f :: (ids2 ++ ids3))) cap) ∧
    (∀ (env : String → List (Page Deviation)) (cutoff : Int) (cap : Option Nat)
        (ids : List String) (items : List Deviation) (d : String),
      gatherVisited env cap ids = some items →
      (gallery_fetch_all_deviations_across_folders env cutoff ids cap).map
          (fun M => M d) =
        some (if relevantFavs (galleryPasses cutoff) d items = [] then none
          else some ((relevantFavs (galleryPasses cutoff) d items).foldl max 0))) ∧
    ((gallery_fetch_all_deviations_across_folders
        (fun fid => if fid = "f1"
          then [Page.mk [Deviation.mk (some 100) (some "d") (some 5)] false none]
          else [Page.mk [Deviation.mk (some 100) (some "d") (some 9)] false none])
        50 ["f1", "f2"] none).map (fun M => M "d") = some (some 9)) := by
  refine ⟨?_, ?_, by decide⟩
  · intro env cutoff cap ids1 ids2 ids3 f
    unfold gallery_fetch_all_deviations_across_folders
    rw [galleryItemStep_eq]
    exact foldlM_dup (galleryPasses cutoff) env cap ids1 ids2 ids3 f emptyFavMap
  · intro env cutoff cap ids items d hgather
    unfold gallery_fetch_all_deviations_across_folders
    rw [galleryItemStep_eq, run_eq_gather, hgather, Option.map_some',
      Option.map_some', foldl_stepOf_apply, scalar_fold_max]
    rfl

/-- Concrete instance of claim C8: for the two-folder environment of its
third conjunct, the visited items gather to an explicit list, and part (2)
of the claim applied there gives the max-characterization of the result at
id d. -/
theorem claim_C8_witness :
    (gatherVisited
        (fun fid => if fid = "f1"
          then [Page.mk [Deviation.mk (some 100) (some "d") (some 5)] false none]
          else [Page.mk [Deviation.mk (some 100) (some "d") (some 9)] false none])
        none ["f1", "f2"] =
      some [Deviation.mk (some 100) (some "d") (some 5),
        Deviation.mk (some 100) (some "d") (some 9)]) ∧
    ((gallery_fetch_all_deviations_across_folders
        (fun fid => if fid = "f1"
          then [Page.mk [Deviation.mk (some 100) (some "d") (some 5)] false none]
          else [Page.mk [Deviation.mk (some 100) (some "d") (some 9)] false none])
        50 ["f1", "f2"] none).map (fun M => M "d") =
      some (if relevantFavs (galleryPasses 50) "d"
            [Deviation.mk (some 100) (some "d") (some 5),
              Deviation.mk (some 100) (some "d") (some 9)] = [] then none
        else some ((relevantFavs (galleryPasses 50) "d"
            [Deviation.mk (some 100) (some "d") (some 5),
              Deviation.mk (some 100) (some "d") (some 9)]).foldl max 0))) :=
  ⟨by decide,
    claim_C8.2.1
      (fun fid => if fid = "f1"
        then [Page.mk [Deviation.mk (some 100) (some "d") (some 5)] false none]
        else [Page.mk [Deviation.mk (some 100) (some "d") (some 9)] false none])
      50 none ["f1", "f2"]
      [Deviation.mk (some 100) (some "d") (some 5),
        Deviation.mk (some 100) (some "d") (some 9)] "d" (by decide)⟩

/-- Claim C3, amended: the skip rules the claim states hold of the
gallery.py aggregation's per-item step, the step the paging loop folds over
every visited item: an item with falsy `published_time` or falsy
`deviationid` is skipped (the map is unchanged, and, the step being total,
no error is raised); an item whose publish instant is before the cutoff is
skipped and contributes to no id (its filter fails); an item at or after
the cutoff with both fields present is folded into the running max for its
id.  The main.py copy of the aggregation, which the claim also cites,
applies no publish-time rule at all: its per-item step is unchanged under
any rewrite of `published_time`. -/
theorem claim_C3 (cutoff : Int) (m : FavMap) (dev : Deviation) :
    (truthyInt dev.published_time = false → galleryItemStep cutoff m dev = m) ∧
    (truthyStr dev.deviationid = false → galleryItemStep cutoff m dev = m) ∧
    (dev.published_time.getD 0 < cutoff →
      galleryItemStep cutoff m dev = m ∧ galleryPasses cutoff dev = false) ∧
    (truthyInt dev.published_time = true → truthyStr dev.deviationid = true →
      cutoff ≤ dev.published_time.getD 0 →
      galleryItemStep cutoff m dev (dev.deviationid.getD "") =
        some (max ((m (dev.deviationid.getD "")).getD 0) (dev.favourites.getD 0))) ∧
    (∀ ts, mainItemStep m { dev with published_time := ts } = mainItemStep m dev) := by
  refine ⟨?_, ?_, ?_, ?_, fun ts => rfl⟩
  · intro h
    unfold galleryItemStep
    rw [h]
    rfl
  · intro h
    unfold galleryItemStep
    rcases h1 : truthyInt dev.published_time with _ | _
    · rfl
    · rw [h]; rfl
  · intro h
    constructor
    · unfold galleryItemStep
      rcases h1 : truthyInt dev.published_time with _ | _
      · rfl
      · rcases h2 : truthyStr dev.deviationid with _ | _
        · rfl
        · simp only [Bool.not_true, Bool.false_eq_true, if_false, if_pos h]
    · unfold galleryPasses
      simp [h]
  · intro h1 h2 h3
    unfold galleryItemStep updateMax
    rw [h1, h2]
    simp only [Bool.not_true, Bool.false_eq_true, if_false,
      if_neg (show ¬dev.published_time.getD 0 < cutoff by omega), if_pos rfl]
    simp

/-- The claim, as stated, is false of the main.py copy of the aggregation it
cites: an item with no `published_time` at all is not skipped there — its id
is recorded with its favourites count. -/
theorem claim_C3_counterexample :
    (main_fetch_all_deviations_across_folders
        (fun _ => [Page.mk [Deviation.mk none (some "d") (some 7)] false none])
        ["f1"] none).map (fun M => M "d") = some (some 7) := by
  decide

/-- Concrete instances of claim C3: a missing timestamp is skipped, a
pre-cutoff timestamp is skipped, an in-window item is folded in, and the
main.py step ignores the timestamp. -/
theorem claim_C3_witness :
    (galleryItemStep 100 emptyFavMap (Deviation.mk none (some "d") (some 7)) =
      emptyFavMap) ∧
    (galleryItemStep 100 emptyFavMap (Deviation.mk (some 150) none (some 7)) =
      emptyFavMap) ∧
    (galleryItemStep 100 emptyFavMap (Deviation.mk (some 50) (some "d") (some 7)) =
      emptyFavMap) ∧
    (galleryItemStep 100 emptyFavMap (Deviation.mk (some 150) (some "d") (some 7)) "d" =
      some (max ((emptyFavMap "d").getD 0) 7)) ∧
    (mainItemStep emptyFavMap (Deviation.mk none (some "d") (some 7)) =
      mainItemStep emptyFavMap (Deviation.mk (some 150) (some "d") (some 7))) :=
  ⟨(claim_C3 100 emptyFavMap (Deviation.mk none (some "d") (some 7))).1 (by decide),
   (claim_C3 100 emptyFavMap (Deviation.mk (some 150) none (some 7))).2.1 (by decide),
   ((claim_C3 100 emptyFavMap (Deviation.mk (some 50) (some "d") (some 7))).2.2.1
     (by decide)).1,
   (claim_C3 100 emptyFavMap (Deviation.mk (some 150) (some "d") (some 7))).2.2.2.1
     (by decide) (by decide) (by decide),
   (claim_C3 100 emptyFavMap (Deviation.mk (some 150) (some "d") (some 7))).2.2.2.2
     none⟩

/-- Claim C10: an item with a (truthy) deviation id whose `stats` object or
`stats.favourites` field is missing or null (embedded as `favourites =
none`) is not skipped and raises no error: both aggregation steps fold it
in with a favourites count of `0`, and when the id is fresh it is recorded
as exactly `0`. -/
theorem claim_C10 (cutoff : Int) (m : FavMap) (dev : Deviation)
    (hfav : dev.favourites = none) (hdid : truthyStr dev.deviationid = true) :
    mainItemStep m dev (dev.deviationid.getD "") =
      some (max ((m (dev.deviationid.getD "")).getD 0) 0) ∧
    (truthyInt dev.published_time = true → cutoff ≤ dev.published_time.getD 0 →
      galleryItemStep cutoff m dev (dev.deviationid.getD "") =
        some (max ((m (dev.deviationid.getD "")).getD 0) 0)) ∧
    (m (dev.deviationid.getD "") = none →
      mainItemStep m dev (dev.deviationid.getD "") = some 0) := by
  have hz : dev.favourites.getD 0 = 0 := by rw [hfav]; rfl
  refine ⟨?_, ?_, ?_⟩
  · unfold mainItemStep updateMax
    rw [hdid, hz]
    simp
  · intro h1 h2
    unfold galleryItemStep updateMax
    rw [h1, hdid, hz]
    simp only [Bool.not_true, Bool.false_eq_true, if_false,
      if_neg (show ¬dev.published_time.getD 0 < cutoff by omega), if_pos rfl]
    simp
  · intro hfresh
    unfold mainItemStep updateMax
    rw [hdid, hz, hfresh]
    simp

/-! ## Token manager

token_store.py and `DeviantArtClient._refresh_access_token` /
`_get_access_token` (deviant_art_client.py lines 37-83; main.py lines
65-111 is the identical copy).  The refresh HTTP exchange is embedded as
the `RefreshPayload` the token endpoint returns; `time.time()` as the
integer parameter `now`; Python `str.strip()` as the executable `pyStrip`.
The `refresh_lock` mutual exclusion is a concurrency property outside this
embedding; the sequence under the lock is embedded as is. -/

/-- Python `str.strip()`: drop whitespace from both ends. -/
def pyStrip (s : String) : String :=
  String.mk
    (((s.data.dropWhile Char.isWhitespace).reverse.dropWhile Char.isWhitespace).reverse)

/-- token_store.py `get_refresh_token(fallback)`: the stripped env value if
non-empty, else the stripped fallback.  `env` is the current value of the
`DA_REFRESH_TOKEN` variable (empty when unset, matching `os.getenv`'s `""`
default). -/
def get_refresh_token (env : String) (fallback : String) : String :=
  let token := pyStrip env
  if token ≠ "" then token else pyStrip fallback

/-- The JSON payload of the token-endpoint response, plus the HTTP-level
`r.ok` flag. -/
structure RefreshPayload where
  ok : Bool
  access_token : Option String
  expires_in : Option Int
  refresh_token : Option String
deriving Repr, DecidableEq

/-- The client's token state: `self.oauth.refresh_token`,
`self._access_token`, `self._token_expires_at`. -/
structure TokenState where
  oauth_refresh_token : String
  access_token : Option String
  token_expires_at : Int
deriving Repr, DecidableEq

/-- The two `RuntimeError`s `_refresh_access_token` can raise itself. -/
inductive RefreshErr where
  | httpFail
  | missingAccessToken
deriving Repr, DecidableEq

/-- Outcome of one `_refresh_access_token` call: the returned access token
or the raised error, the updated client state, and the sequence of values
written to the token store (already stripped, as `save_refresh_token`
strips before persisting). -/
structure RefreshOut where
  result : Except RefreshErr String
  state : TokenState
  saves : List String

/-- `_refresh_access_token` (deviant_art_client.py lines 37-78): reconcile
the in-memory refresh token with the store, fail on a non-ok response or a
falsy `access_token`; persist a carried refresh token only when its
stripped value is non-empty and differs from the current one (also updating
memory), persist the current token when none (or a blank one) is carried,
and persist nothing when the carried token equals the current one; finally
cache the access token with expiry `now + expires_in - 60`. -/
def refresh_access_token (env : String) (resp : RefreshPayload) (now : Int)
    (st : TokenState) : RefreshOut :=
  let rt := get_refresh_token env st.oauth_refresh_token
  let st1 : TokenState := { st with oauth_refresh_token := rt }
  if !resp.ok then ⟨.error .httpFail, st1, []⟩
  else
    let expires_in := resp.expires_in.getD 3600
    if !truthyStr resp.access_token then ⟨.error .missingAccessToken, st1, []⟩
    else
      let a := resp.access_token.getD ""
      match resp.refresh_token with
      | some nr =>
        if pyStrip nr ≠ "" then
          if pyStrip nr ≠ pyStrip rt then
            ⟨.ok a, ⟨pyStrip nr, some a, now + expires_in - 60⟩, [pyStrip nr]⟩
          else
            ⟨.ok a, ⟨rt, some a, now + expires_in - 60⟩, []⟩
        else
          ⟨.ok a, ⟨rt, some a, now + expires_in - 60⟩, [pyStrip rt]⟩
      | none =>
        ⟨.ok a, ⟨rt, some a, now + expires_in - 60⟩, [pyStrip rt]⟩

/-- `_get_access_token` (deviant_art_client.py lines 80-83): refresh when
there is no (truthy) cached token or the clock is at or past the recorded
expiry, else return the cached token.  The second component counts the
refresh calls performed (0 or 1). -/
def get_access_token (env : String) (resp : RefreshPayload) (now : Int)
    (st : TokenState) : RefreshOut × Nat :=
  if !truthyStr st.access_token || decide (st.token_expires_at ≤ now) then
    (refresh_access_token env resp now st, 1)
  else
    (⟨.ok (st.access_token.getD ""), st, []⟩, 0)

/-- Claim C4, amended: after a successful refresh the store is written
exactly once with the new stripped refresh token when the response carries
one differing (after stripping) from the current token (and memory is
updated to it); exactly once with the current token when the response
carries no refresh token or a blank one; and — contrary to the claim as
stated — not at all when the carried token equals the current one (memory
then keeps the current token, which the store already holds). -/
theorem claim_C4 (env : String) (resp : RefreshPayload) (now : Int) (st : TokenState)
    (hok : resp.ok = true) (hat : truthyStr resp.access_token = true) :
    (∀ nr, resp.refresh_token = some nr → pyStrip nr ≠ "" →
      pyStrip nr ≠ pyStrip (get_refresh_token env st.oauth_refresh_token) →
      (refresh_access_token env resp now st).saves = [pyStrip nr] ∧
      (refresh_access_token env resp now st).state.oauth_refresh_token = pyStrip nr) ∧
    (∀ nr, resp.refresh_token = some nr → pyStrip nr ≠ "" →
      pyStrip nr = pyStrip (get_refresh_token env st.oauth_refresh_token) →
      (refresh_access_token env resp now st).saves = [] ∧
      (refresh_access_token env resp now st).state.oauth_refresh_token =
        get_refresh_token env st.oauth_refresh_token) ∧
    (resp.refresh_token = none →
      (refresh_access_token env resp now st).saves =
        [pyStrip (get_refresh_token env st.oauth_refresh_token)]) ∧
    (∀ nr, resp.refresh_token = some nr → pyStrip nr = "" →
      (refresh_access_token env resp now st).saves =
        [pyStrip (get_refresh_token env st.oauth_refresh_token)]) := by
  refine ⟨?_, ?_, ?_, ?_⟩
  · intro nr hnr h1 h2
    unfold refresh_access_token
    rw [hok, hat]
    simp [hnr, h1, h2]
  · intro nr hnr h1 h2
    unfold refresh_access_token
    rw [hok, hat]
    rw [h2] at h1
    simp [hnr, h1, h2]
  · intro hnr
    unfold refresh_access_token
    rw [hok, hat]
    simp [hnr]
  · intro nr hnr h1
    unfold refresh_access_token
    rw [hok, hat]
    simp [hnr, h1]

/-- The claim as stated is false: on a successful refresh whose response
carries a refresh token equal to the current one, the code writes the store
zero times, not once. -/
theorem claim_C4_counterexample :
    (refresh_access_token "" (RefreshPayload.mk true (some "A") (some 3600) (some "RT"))
        1000 (TokenState.mk "RT" none 0)).result = Except.ok "A" ∧
    (refresh_access_token "" (RefreshPayload.mk true (some "A") (some 3600) (some "RT"))
        1000 (TokenState.mk "RT" none 0)).saves = [] := by
  constructor
  · rfl
  · rfl

/-- Concrete instances of claim C4: a rotated token is persisted once and
adopted, an echoed token writes nothing, a missing token re-persists the
current one, and a blank token re-persists the current one. -/
theorem claim_C4_witness :
    ((RefreshPayload.mk true (some "A") (some 3600) (some "NEW")).ok = true) ∧
    (truthyStr (RefreshPayload.mk true (some "A") (some 3600) (some "NEW")).access_token
      = true) ∧
    ((refresh_access_token "" (RefreshPayload.mk true (some "A") (some 3600) (some "NEW"))
        1000 (TokenState.mk "RT" none 0)).saves = [pyStrip "NEW"] ∧
      (refresh_access_token "" (RefreshPayload.mk true (some "A") (some 3600) (some "NEW"))
        1000 (TokenState.mk "RT" none 0)).state.oauth_refresh_token = pyStrip "NEW") ∧
    ((refresh_access_token "" (RefreshPayload.mk true (some "A") (some 3600) (some "RT"))
        1000 (TokenState.mk "RT" none 0)).saves = [] ∧
      (refresh_access_token "" (RefreshPayload.mk true (some "A") (some 3600) (some "RT"))
        1000 (TokenState.mk "RT" none 0)).state.oauth_refresh_token =
        get_refresh_token "" (TokenState.mk "RT" none 0).oauth_refresh_token) ∧
    ((refresh_access_token "" (RefreshPayload.mk true (some "A") (some 3600) none)
        1000 (TokenState.mk "RT" none 0)).saves =
      [pyStrip (get_refresh_token "" (TokenState.mk "RT" none 0).oauth_refresh_token)]) ∧
    ((refresh_access_token "" (RefreshPayload.mk true (some "A") (some 3600) (some "  "))
        1000 (TokenState.mk "RT" none 0)).saves =
      [pyStrip (get_refresh_token "" (TokenState.mk "RT" none 0).oauth_refresh_token)]) :=
  ⟨rfl, rfl,
   (claim_C4 "" (RefreshPayload.mk true (some "A") (some 3600) (some "NEW")) 1000
      (TokenState.mk "RT" none 0) rfl rfl).1 "NEW" rfl (by decide) (by decide),
   (claim_C4 "" (RefreshPayload.mk true (some "A") (some 3600) (some "RT")) 1000
      (TokenState.mk "RT" none 0) rfl rfl).2.1 "RT" rfl (by decide) (by decide),
   (claim_C4 "" (RefreshPayload.mk true (some "A") (some 3600) none) 1000
      (TokenState.mk "RT" none 0) rfl rfl).2.2.1 rfl,
   (claim_C4 "" (RefreshPayload.mk true (some "A") (some 3600) (some "  ")) 1000
      (TokenState.mk "RT" none 0) rfl rfl).2.2.2 "  " rfl (by decide)⟩

/-- Claim C5: `_get_access_token` returns the cached token with no refresh
when a (truthy) cached token exists and the clock is strictly before the
recorded expiry; otherwise it performs exactly one refresh, whose success
returns the fresh token and records expiry `now + expires_in - 60`; and a
second call within that margin performs no further refresh and returns the
same token. -/
theorem claim_C5 (env : String) (resp : RefreshPayload) (now : Int) (st : TokenState) :
    (∀ a, st.access_token = some a → a ≠ "" → now < st.token_expires_at →
      get_access_token env resp now st = (⟨.ok a, st, []⟩, 0)) ∧
    ((truthyStr st.access_token = false ∨ st.token_expires_at ≤ now) →
      get_access_token env resp now st = (refresh_access_token env resp now st, 1)) ∧
    (∀ a, resp.ok = true → resp.access_token = some a → a ≠ "" →
      (refresh_access_token env resp now st).result = .ok a ∧
      (refresh_access_token env resp now st).state.access_token = some a ∧
      (refresh_access_token env resp now st).state.token_expires_at =
        now + resp.expires_in.getD 3600 - 60) ∧
    (∀ a now' env' resp', resp.ok = true → resp.access_token = some a → a ≠ "" →
      (truthyStr st.access_token = false ∨ st.token_expires_at ≤ now) →
      now' < now + resp.expires_in.getD 3600 - 60 →
      get_access_token env' resp' now' (get_access_token env resp now st).1.state =
        (⟨.ok a, (get_access_token env resp now st).1.state, []⟩, 0)) := by
  have hcached : ∀ (st' : TokenState) (a : String) (env₀ : String)
      (resp₀ : RefreshPayload) (now₀ : Int), st'.access_token = some a → a ≠ "" →
      now₀ < st'.token_expires_at →
      get_access_token env₀ resp₀ now₀ st' = (⟨.ok a, st', []⟩, 0) := by
    intro st' a env₀ resp₀ now₀ ha hne hlt
    have ht : truthyStr st'.access_token = true := by
      rw [ha]; simp [truthyStr, hne]
    unfold get_access_token
    rw [if_neg (by simp [ht, not_le.mpr hlt])]
    rw [ha]
    rfl
  have hrefresh : (truthyStr st.access_token = false ∨ st.token_expires_at ≤ now) →
      get_access_token env resp now st = (refresh_access_token env resp now st, 1) := by
    intro h
    unfold get_access_token
    rcases h with h | h
    · rw [if_pos (by simp [h])]
    · rw [if_pos (by simp [h])]
  have hsuccess : ∀ a, resp.ok = true → resp.access_token = some a → a ≠ "" →
      (refresh_access_token env resp now st).result = .ok a ∧
      (refresh_access_token env resp now st).state.access_token = some a ∧
      (refresh_access_token env resp now st).state.token_expires_at =
        now + resp.expires_in.getD 3600 - 60 := by
    intro a hok ha hne
    have hta : truthyStr resp.access_token = true := by
      rw [ha]; simp [truthyStr, hne]
    unfold refresh_access_token
    rw [hok, hta]
    rcases hr : resp.refresh_token with _ | nr
    · simp [ha]
    · by_cases h1 : pyStrip nr = ""
      · simp [ha, h1]
      · by_cases h2 : pyStrip nr = pyStrip (get_refresh_token env st.oauth_refresh_token)
        · by_cases h3 : pyStrip (get_refresh_token env st.oauth_refresh_token) = "" <;>
            simp [ha, h1, h2, h3]
        · simp [ha, h1, h2]
  refine ⟨fun a ha hne hlt => hcached st a env resp now ha hne hlt, hrefresh, hsuccess, ?_⟩
  intro a now' env' resp' hok ha hne hforce hlt
  rw [hrefresh hforce]
  obtain ⟨_, hacc, hexp⟩ := hsuccess a hok ha hne
  exact hcached _ a env' resp' now' hacc hne (by rw [hexp]; exact hlt)

/-- Concrete instances of claim C5: a valid cached token is returned with
zero refreshes; an expired state forces the refresh; the refresh caches the
fresh token with the documented expiry; a second call inside the margin
does not refresh again. -/
theorem claim_C5_witness :
    (get_access_token "" (RefreshPayload.mk true (some "A") (some 3600) none) 500
        (TokenState.mk "RT" (some "TOK") 900) =
      (⟨Except.ok "TOK", TokenState.mk "RT" (some "TOK") 900, []⟩, 0)) ∧
    (get_access_token "" (RefreshPayload.mk true (some "A") (some 3600) none) 900
        (TokenState.mk "RT" (some "TOK") 900) =
      (refresh_access_token "" (RefreshPayload.mk true (some "A") (some 3600) none) 900
        (TokenState.mk "RT" (some "TOK") 900), 1)) ∧
    ((refresh_access_token "" (RefreshPayload.mk true (some "A") (some 3600) none) 900
        (TokenState.mk "RT" (some "TOK") 900)).result = Except.ok "A" ∧
      (refresh_access_token "" (RefreshPayload.mk true (some "A") (some 3600) none) 900
        (TokenState.mk "RT" (some "TOK") 900)).state.access_token = some "A" ∧
      (refresh_access_token "" (RefreshPayload.mk true (some "A") (some 3600) none) 900
        (TokenState.mk "RT" (some "TOK") 900)).state.token_expires_at =
        900 + (RefreshPayload.mk true (some "A") (some 3600) none).expires_in.getD 3600
          - 60) ∧
    (get_access_token "X" (RefreshPayload.mk false none none none) 1000
        (get_access_token "" (RefreshPayload.mk true (some "A") (some 3600) none) 900
          (TokenState.mk "RT" (some "TOK") 900)).1.state =
      (⟨Except.ok "A",
        (get_access_token "" (RefreshPayload.mk true (some "A") (some 3600) none) 900
          (TokenState.mk "RT" (some "TOK") 900)).1.state, []⟩, 0)) :=
  ⟨(claim_C5 "" (RefreshPayload.mk true (some "A") (some 3600) none) 500
      (TokenState.mk "RT" (some "TOK") 900)).1 "TOK" rfl (by decide) (by decide),
   (claim_C5 "" (RefreshPayload.mk true (some "A") (some 3600) none) 900
      (TokenState.mk "RT" (some "TOK") 900)).2.1 (Or.inr (by decide)),
   (claim_C5 "" (RefreshPayload.mk true (some "A") (some 3600) none) 900
      (TokenState.mk "RT" (some "TOK") 900)).2.2.1 "A" rfl rfl (by decide),
   (claim_C5 "" (RefreshPayload.mk true (some "A") (some 3600) none) 900
      (TokenState.mk "RT" (some "TOK") 900)).2.2.2 "A" 1000 "X"
      (RefreshPayload.mk false none none none) rfl rfl (by decide)
      (Or.inr (by decide)) (by decide)⟩

/-! ## Resilient request pipeline

`DeviantArtClient.request` (deviant_art_client.py lines 85-136) and
`DeviantArtClient._request` (main.py lines 113-165).  The retry loops are
embedded against a script of session outcomes; the initial
`_get_access_token` call before the loop is the token-manager model above
and is not part of the loop.  The two copies differ in three ways: the
client copy starts `backoff = self.min_delay_s` (0.35 s) and sleeps
`min_delay_s` only on the 401 path; the main copy starts `backoff = 1.0`
and sleeps `min_delay_s` at the top of every attempt.  (`attempt >=
self.max_retries` in the client and `attempt == self.max_retries` in main
coincide, as `attempt` never exceeds `max_retries`.)  Durations are in
centiseconds.  A key mechanic shared by both: `r.raise_for_status()` raises
`requests.HTTPError`, a subclass of `requests.RequestException`, so the
`except requests.RequestException` clause catches it and retries any
non-success status on the backoff schedule until the final attempt. -/

/-- One outcome of a `self._session.request` call: a response with a status
and (parsed JSON) body, or a raised network-level `RequestException`. -/
inductive Outcome where
  | resp (status : Nat) (body : Nat)
  | netErr
deriving Repr, DecidableEq

/-- The error a `request` call can propagate: an HTTPError carrying the
status from `raise_for_status`, a network-level RequestException, or the
`RuntimeError("Unreachable")` after the loop (reachable only when
`max_retries = 0` and the loop body never runs). -/
inductive ReqError where
  | http (status : Nat)
  | net
  | unreachable
deriving Repr, DecidableEq

/-- `r.status_code in (429, 500, 502, 503, 504)`. -/
def transient (s : Nat) : Bool :=
  s == 429 || s == 500 || s == 502 || s == 503 || s == 504

/-- Pipeline configuration: `min_delay_s` in centiseconds (default 0.35 s =
35) and `max_retries` (default 6). -/
structure PipeCfg where
  min_delay_cs : Nat
  max_retries : Nat
deriving Repr, DecidableEq

/-- The constructor defaults `min_delay_s=0.35, max_retries=6`. -/
def defaultPipeCfg : PipeCfg := ⟨35, 6⟩

/-- What one attempt decides: return a parsed body, or reach the retry path
with the error that would propagate were the budget exhausted. -/
inductive StepOut where
  | done (body : Nat)
  | retry (e : ReqError)
deriving Repr, DecidableEq

/-- Classification of a response past the 401 branch, identical in both
copies: a transient status enters the backoff branch; any other status in
`raise_for_status`'s raising range `400 <= s < 600` makes it raise
`HTTPError`, which the `except requests.RequestException` clause catches,
so it is retried on the same backoff schedule; any status outside that
range does not raise and `r.json()` is returned. -/
def classifyResponse (s : Nat) (body : Nat) : StepOut :=
  if transient s then .retry (.http s)
  else if 400 ≤ s ∧ s < 600 then .retry (.http s)
  else .done body

/-- Bookkeeping of one attempt: its decision, the unconsumed script,
`min_delay_s` sleeps performed inside the attempt body, forced token
refreshes, and session calls issued. -/
structure StepRes where
  out : StepOut
  rest : List Outcome
  delaySleeps : Nat
  refreshes : Nat
  httpCalls : Nat
deriving Repr, DecidableEq

/-- One iteration of the client copy's try block (deviant_art_client.py
lines 97-128): issue the call; on a 401, sleep `min_delay_s`, force exactly
one refresh, and re-issue exactly once; then classify.  An exhausted script
stands for a network error. -/
def client_request_step : List Outcome → StepRes
  | [] => ⟨.retry .net, [], 0, 0, 1⟩
  | Outcome.netErr :: rest => ⟨.retry .net, rest, 0, 0, 1⟩
  | Outcome.resp s b :: rest =>
    if s == 401 then
      match rest with
      | [] => ⟨.retry .net, [], 1, 1, 2⟩
      | Outcome.netErr :: rest2 => ⟨.retry .net, rest2, 1, 1, 2⟩
      | Outcome.resp s2 b2 :: rest2 => ⟨classifyResponse s2 b2, rest2, 1, 1, 2⟩
    else ⟨classifyResponse s b, rest, 0, 0, 1⟩

/-- One iteration of the main copy's try block (main.py lines 125-157):
identical except that the 401 path performs no sleep (the per-attempt sleep
is accounted in the loop). -/
def main_request_step : List Outcome → StepRes
  | [] => ⟨.retry .net, [], 0, 0, 1⟩
  | Outcome.netErr :: rest => ⟨.retry .net, rest, 0, 0, 1⟩
  | Outcome.resp s b :: rest =>
    if s == 401 then
      match rest with
      | [] => ⟨.retry .net, [], 0, 1, 2⟩
      | Outcome.netErr :: rest2 => ⟨.retry .net, rest2, 0, 1, 2⟩
      | Outcome.resp s2 b2 :: rest2 => ⟨classifyResponse s2 b2, rest2, 0, 1, 2⟩
    else ⟨classifyResponse s b, rest, 0, 0, 1⟩

/-- Trace of a whole `request` call: the returned body or propagated error,
the unconsumed script, the backoff sleeps in order, the `min_delay_s`
sleeps, the forced refreshes, the session calls, and the loop iterations
executed. -/
structure RunOut where
  result : Except ReqError Nat
  rest : List Outcome
  backoffSleeps : List Nat
  delaySleeps : Nat
  refreshes : Nat
  httpCalls : Nat
  attempts : Nat
deriving Repr

/-- The client copy's `for attempt in range(1, max_retries + 1)` loop with
`attemptsLeft` iterations remaining (`attempt >= max_retries` exactly when
one is left) and the current `backoff`: a retriable outcome sleeps
`backoff` and doubles it, except on the last attempt, where the error is
raised. -/
def client_request_go : Nat → Nat → List Outcome → RunOut
  | 0, _, script => ⟨.error .unreachable, script, [], 0, 0, 0, 0⟩
  | n + 1, backoff, script =>
    let st := client_request_step script
    match st.out with
    | .done b => ⟨.ok b, st.rest, [], st.delaySleeps, st.refreshes, st.httpCalls, 1⟩
    | .retry e =>
      if n = 0 then
        ⟨.error e, st.rest, [], st.delaySleeps, st.refreshes, st.httpCalls, 1⟩
      else
        let r := client_request_go n (2 * backoff) st.rest
        ⟨r.result, r.rest, backoff :: r.backoffSleeps,
          st.delaySleeps + r.delaySleeps, st.refreshes + r.refreshes,
          st.httpCalls + r.httpCalls, 1 + r.attempts⟩

/-- `DeviantArtClient.request`, from `backoff = self.min_delay_s`. -/
def client_request (cfg : PipeCfg) (script : List Outcome) : RunOut :=
  client_request_go cfg.max_retries cfg.min_delay_cs script

/-- The main copy's loop: same shape, plus one `min_delay_s` sleep at the
top of every attempt. -/
def main_request_go : Nat → Nat → List Outcome → RunOut
  | 0, _, script => ⟨.error .unreachable, script, [], 0, 0, 0, 0⟩
  | n + 1, backoff, script =>
    let st := main_request_step script
    match st.out with
    | .done b => ⟨.ok b, st.rest, [], st.delaySleeps + 1, st.refreshes, st.httpCalls, 1⟩
    | .retry e =>
      if n = 0 then
        ⟨.error e, st.rest, [], st.delaySleeps + 1, st.refreshes, st.httpCalls, 1⟩
      else
        let r := main_request_go n (2 * backoff) st.rest
        ⟨r.result, r.rest, backoff :: r.backoffSleeps,
          st.delaySleeps + 1 + r.delaySleeps, st.refreshes + r.refreshes,
          st.httpCalls + r.httpCalls, 1 + r.attempts⟩

/-- `DeviantArtClient._request` (main.py), from its literal `backoff = 1.0`
(100 centiseconds). -/
def main_request (cfg : PipeCfg) (script : List Outcome) : RunOut :=
  main_request_go cfg.max_retries 100 script

/-- The doubling schedule: `k` sleeps starting at `b`. -/
def geomBackoffs (b : Nat) : Nat → List Nat
  | 0 => []
  | k + 1 => b :: geomBackoffs (2 * b) k

lemma geomBackoffs_length : ∀ (k : Nat) (b : Nat), (geomBackoffs b k).length = k := by
  intro k
  induction k with
  | zero => intro b; rfl
  | succ k ih => intro b; simp [geomBackoffs, ih]

lemma geomBackoffs_getElem :
    ∀ (k : Nat) (b i : Nat), i < k → (geomBackoffs b k)[i]? = some (b * 2 ^ i) := by
  intro k
  induction k with
  | zero => intro b i hi; omega
  | succ k ih =>
    intro b i hi
    rcases i with _ | i
    · simp [geomBackoffs]
    · rw [geomBackoffs]
      rw [List.getElem?_cons_succ, ih (2 * b) i (by omega)]
      congr 1
      rw [pow_succ]
      ring

lemma client_go_shape :
    ∀ (n b : Nat) (script : List Outcome), 1 ≤ n →
      ∃ k, (client_request_go n b script).backoffSleeps = geomBackoffs b k ∧
        k + 1 = (client_request_go n b script).attempts ∧
        (client_request_go n b script).attempts ≤ n := by
  intro n
  induction n with
  | zero => intro b script h; omega
  | succ n ih =>
    intro b script _
    simp only [client_request_go]
    rcases hout : (client_request_step script).out with b' | e <;> dsimp only
    · exact ⟨0, rfl, rfl, by exact (show (1:Nat) ≤ n + 1 by omega)⟩
    · by_cases hn0 : n = 0
      · rw [if_pos hn0]
        exact ⟨0, rfl, rfl, by exact (show (1:Nat) ≤ n + 1 by omega)⟩
      · rw [if_neg hn0]
        obtain ⟨k, hk1, hk2, hk3⟩ :=
          ih (2 * b) (client_request_step script).rest (by omega)
        refine ⟨k + 1, ?_, by dsimp only; omega, by dsimp only; omega⟩
        dsimp only
        rw [hk1]
        rfl

lemma main_step_delaySleeps : ∀ (script : List Outcome),
    (main_request_step script).delaySleeps = 0 := by
  intro script
  rcases script with _ | ⟨o, rest⟩
  · rfl
  · rcases o with ⟨s, b⟩ | _
    · simp only [main_request_step]
      by_cases h : (s == 401) = true
      · rw [if_pos h]
        rcases rest with _ | ⟨o2, rest2⟩
        · rfl
        · rcases o2 with ⟨s2, b2⟩ | _ <;> rfl
      · rw [if_neg h]
    · rfl

lemma main_go_shape :
    ∀ (n b : Nat) (script : List Outcome), 1 ≤ n →
      ∃ k, (main_request_go n b script).backoffSleeps = geomBackoffs b k ∧
        k + 1 = (main_request_go n b script).attempts ∧
        (main_request_go n b script).attempts ≤ n ∧
        (main_request_go n b script).delaySleeps =
          (main_request_go n b script).attempts := by
  intro n
  induction n with
  | zero => intro b script h; omega
  | succ n ih =>
    intro b script _
    simp only [main_request_go]
    rcases hout : (main_request_step script).out with b' | e <;> dsimp only
    · exact ⟨0, rfl, rfl, by exact (show (1:Nat) ≤ n + 1 by omega),
        by rw [main_step_delaySleeps]⟩
    · by_cases hn0 : n = 0
      · rw [if_pos hn0]
        exact ⟨0, rfl, rfl, by exact (show (1:Nat) ≤ n + 1 by omega),
          by rw [main_step_delaySleeps]⟩
      · rw [if_neg hn0]
        obtain ⟨k, hk1, hk2, hk3, hk4⟩ :=
          ih (2 * b) (main_request_step script).rest (by omega)
        refine ⟨k + 1, ?_, by dsimp only; omega, by dsimp only; omega, ?_⟩
        · dsimp only
          rw [hk1]
          rfl
        · dsimp only
          rw [main_step_delaySleeps]
          omega

lemma classify_ge_400 (s b : Nat) (hs : 400 ≤ s) (hs6 : s < 600) :
    classifyResponse s b = .retry (.http s) := by
  unfold classifyResponse
  by_cases ht : transient s = true
  · rw [if_pos ht]
  · rw [if_neg ht, if_pos ⟨hs, hs6⟩]

lemma client_step_non401 (s b : Nat) (rest : List Outcome) (h401 : s ≠ 401) :
    client_request_step (Outcome.resp s b :: rest) =
      ⟨classifyResponse s b, rest, 0, 0, 1⟩ := by
  simp only [client_request_step]
  rw [if_neg (by simp [h401])]

lemma main_step_non401 (s b : Nat) (rest : List Outcome) (h401 : s ≠ 401) :
    main_request_step (Outcome.resp s b :: rest) =
      ⟨classifyResponse s b, rest, 0, 0, 1⟩ := by
  simp only [main_request_step]
  rw [if_neg (by simp [h401])]

lemma client_go_all_bad (s b : Nat) (hs : 400 ≤ s) (hs6 : s < 600)
    (h401 : s ≠ 401) :
    ∀ (n bkf : Nat),
      client_request_go (n + 1) bkf (List.replicate (n + 1) (Outcome.resp s b)) =
        ⟨.error (.http s), [], geomBackoffs bkf n, 0, 0, n + 1, n + 1⟩ := by
  have hc := classify_ge_400 s b hs hs6
  intro n
  induction n with
  | zero =>
    intro bkf
    show client_request_go 1 bkf [Outcome.resp s b] = _
    simp only [client_request_go, client_step_non401 s b [] h401, hc]
    simp [geomBackoffs]
  | succ n ih =>
    intro bkf
    show client_request_go (n + 2) bkf
        (Outcome.resp s b :: List.replicate (n + 1) (Outcome.resp s b)) = _
    rw [client_request_go, client_step_non401 s b _ h401, hc]
    dsimp only
    rw [if_neg (by omega : ¬n + 1 = 0), ih (2 * bkf)]
    simp [RunOut.mk.injEq, geomBackoffs]
    all_goals omega

lemma main_go_all_bad (s b : Nat) (hs : 400 ≤ s) (hs6 : s < 600)
    (h401 : s ≠ 401) :
    ∀ (n bkf : Nat),
      main_request_go (n + 1) bkf (List.replicate (n + 1) (Outcome.resp s b)) =
        ⟨.error (.http s), [], geomBackoffs bkf n, n + 1, 0, n + 1, n + 1⟩ := by
  have hc := classify_ge_400 s b hs hs6
  intro n
  induction n with
  | zero =>
    intro bkf
    show main_request_go 1 bkf [Outcome.resp s b] = _
    simp only [main_request_go, main_step_non401 s b [] h401, hc]
    simp [geomBackoffs]
  | succ n ih =>
    intro bkf
    show main_request_go (n + 2) bkf
        (Outcome.resp s b :: List.replicate (n + 1) (Outcome.resp s b)) = _
    rw [main_request_go, main_step_non401 s b _ h401, hc]
    dsimp only
    rw [if_neg (by omega : ¬n + 1 = 0), ih (2 * bkf)]
    simp [RunOut.mk.injEq, geomBackoffs]
    all_goals omega

/-- Claim C2, amended: a non-success status outside {401} and the transient
set, within `raise_for_status`'s raising range `400 <= s < 600`, does NOT
fail immediately: `raise_for_status` raises HTTPError, a RequestException,
which the except clause catches, so such a response is classified exactly
like a transient one and retried with backoff sleeps; in both pipeline
copies, a script of nothing but that status exhausts all `max_retries`
attempts, sleeping the full doubling schedule, before the HTTPError finally
propagates.  (A status of 600 or above does not raise in requests, so the
parsed body is returned; such statuses are outside this claim.) -/
theorem claim_C2 (s : Nat) (hs : 400 ≤ s) (hs6 : s < 600)
    (_hnt : transient s = false) (h401 : s ≠ 401) :
    (∀ b, classifyResponse s b = .retry (.http s)) ∧
    (∀ b n bkf,
      client_request_go (n + 1) bkf (List.replicate (n + 1) (Outcome.resp s b)) =
        ⟨.error (.http s), [], geomBackoffs bkf n, 0, 0, n + 1, n + 1⟩) ∧
    (∀ b n bkf,
      main_request_go (n + 1) bkf (List.replicate (n + 1) (Outcome.resp s b)) =
        ⟨.error (.http s), [], geomBackoffs bkf n, n + 1, 0, n + 1, n + 1⟩) :=
  ⟨fun b => classify_ge_400 s b hs hs6,
   fun b n bkf => client_go_all_bad s b hs hs6 h401 n bkf,
   fun b n bkf => main_go_all_bad s b hs hs6 h401 n bkf⟩

/-- The claim as stated is false: a 403 response is not propagated
immediately — with default settings a 403 followed by a 200 is retried
after one backoff sleep and the call returns the 200 body, in both
pipeline copies. -/
theorem claim_C2_counterexample :
    (client_request defaultPipeCfg [Outcome.resp 403 0, Outcome.resp 200 77]).result =
      Except.ok 77 ∧
    (client_request defaultPipeCfg
        [Outcome.resp 403 0, Outcome.resp 200 77]).backoffSleeps = [35] ∧
    (main_request defaultPipeCfg [Outcome.resp 403 0, Outcome.resp 200 77]).result =
      Except.ok 77 :=
  ⟨rfl, rfl, rfl⟩

/-- Concrete instance of claim C2: an all-404 script exhausts three
attempts with the doubling schedule and surfaces the HTTPError. -/
theorem claim_C2_witness :
    ((400 ≤ 404) ∧ (404 < 600) ∧ transient 404 = false ∧ 404 ≠ 401) ∧
    client_request_go 3 35 (List.replicate 3 (Outcome.resp 404 0)) =
      ⟨.error (.http 404), [], geomBackoffs 35 2, 0, 0, 3, 3⟩ :=
  ⟨⟨by decide, by decide, by decide, by decide⟩,
   (claim_C2 404 (by decide) (by decide) (by decide) (by decide)).2.1 0 2 35⟩

/-- Claim C6: a 401 response forces exactly one token refresh and exactly
one re-issue of the same request within the same attempt, before and
regardless of any budget check; the retried response then goes through the
normal classification, and if it is a success its parsed body is returned —
with exactly one forced refresh, two session calls, and no backoff sleep in
the whole call. -/
theorem claim_C6 (cfg : PipeCfg) (b s2 b2 : Nat) (rest : List Outcome)
    (h : 1 ≤ cfg.max_retries) :
    (client_request_step (Outcome.resp 401 b :: Outcome.resp s2 b2 :: rest) =
      ⟨classifyResponse s2 b2, rest, 1, 1, 2⟩) ∧
    (s2 < 400 →
      client_request cfg (Outcome.resp 401 b :: Outcome.resp s2 b2 :: rest) =
        ⟨.ok b2, rest, [], 1, 1, 2, 1⟩) := by
  refine ⟨rfl, ?_⟩
  intro hs2
  have ht : transient s2 = false := by
    unfold transient
    simp only [Bool.or_eq_false_iff, beq_eq_false_iff_ne, ne_eq]
    omega
  have hc : classifyResponse s2 b2 = .done b2 := by
    unfold classifyResponse
    rw [ht]
    simp only [Bool.false_eq_true, if_false]
    rw [if_neg (by omega)]
  have hstep : client_request_step (Outcome.resp 401 b :: Outcome.resp s2 b2 :: rest) =
      ⟨.done b2, rest, 1, 1, 2⟩ := by
    rw [show client_request_step (Outcome.resp 401 b :: Outcome.resp s2 b2 :: rest) =
      ⟨classifyResponse s2 b2, rest, 1, 1, 2⟩ from rfl, hc]
  obtain ⟨n, hn⟩ : ∃ n, cfg.max_retries = n + 1 := ⟨cfg.max_retries - 1, by omega⟩
  unfold client_request
  rw [hn]
  simp only [client_request_go, hstep]

/-- Concrete instance of claim C6: default settings, a 401 then a 200. -/
theorem claim_C6_witness :
    (1 ≤ defaultPipeCfg.max_retries) ∧
    (client_request_step [Outcome.resp 401 0, Outcome.resp 200 9] =
      ⟨classifyResponse 200 9, [], 1, 1, 2⟩) ∧
    ((200 < 400) ∧
      client_request defaultPipeCfg [Outcome.resp 401 0, Outcome.resp 200 9] =
        ⟨.ok 9, [], [], 1, 1, 2, 1⟩) :=
  ⟨by decide,
   (claim_C6 defaultPipeCfg 0 200 9 [] (by decide)).1,
   by decide,
   (claim_C6 defaultPipeCfg 0 200 9 [] (by decide)).2 (by decide)⟩

/-- Claim C7, amended: in `DeviantArtClient.request` the backoff sleeps are
exactly the doubling schedule starting at `min_delay_s` (default 0.35 s,
sub-second), one per retried attempt, with attempts bounded by
`max_retries` (default 6); but no separate minimum inter-request delay is
slept before attempts there (min_delay is slept only on the 401 path).  In
main.py's `_request`, `min_delay_s` is slept before every attempt and
attempts are bounded the same way, but the backoff schedule starts at a
full second (its literal `backoff = 1.0`), not at a sub-second value. -/
theorem claim_C7 (cfg : PipeCfg) (script : List Outcome) (h : 1 ≤ cfg.max_retries) :
    (∃ k, (client_request cfg script).backoffSleeps =
        geomBackoffs cfg.min_delay_cs k ∧
      k + 1 = (client_request cfg script).attempts ∧
      (client_request cfg script).attempts ≤ cfg.max_retries) ∧
    (∀ i, i < (client_request cfg script).backoffSleeps.length →
      (client_request cfg script).backoffSleeps[i]? =
        some (cfg.min_delay_cs * 2 ^ i)) ∧
    (defaultPipeCfg.min_delay_cs = 35 ∧ 35 < 100 ∧ defaultPipeCfg.max_retries = 6) ∧
    (∃ k, (main_request cfg script).backoffSleeps = geomBackoffs 100 k ∧
      k + 1 = (main_request cfg script).attempts ∧
      (main_request cfg script).attempts ≤ cfg.max_retries ∧
      (main_request cfg script).delaySleeps = (main_request cfg script).attempts) ∧
    (∀ i, i < (main_request cfg script).backoffSleeps.length →
      (main_request cfg script).backoffSleeps[i]? = some (100 * 2 ^ i)) := by
  obtain ⟨k, h1, h2, h3⟩ := client_go_shape cfg.max_retries cfg.min_delay_cs script h
  obtain ⟨k', g1, g2, g3, g4⟩ := main_go_shape cfg.max_retries 100 script h
  refine ⟨⟨k, h1, h2, h3⟩, ?_, ⟨rfl, by omega, rfl⟩, ⟨k', g1, g2, g3, g4⟩, ?_⟩
  · intro i hi
    have hi' : i < k := by
      rw [show (client_request cfg script).backoffSleeps =
        geomBackoffs cfg.min_delay_cs k from h1, geomBackoffs_length] at hi
      exact hi
    rw [show (client_request cfg script).backoffSleeps =
      geomBackoffs cfg.min_delay_cs k from h1]
    exact geomBackoffs_getElem k cfg.min_delay_cs i hi'
  · intro i hi
    have hi' : i < k' := by
      rw [show (main_request cfg script).backoffSleeps =
        geomBackoffs 100 k' from g1, geomBackoffs_length] at hi
      exact hi
    rw [show (main_request cfg script).backoffSleeps =
      geomBackoffs 100 k' from g1]
    exact geomBackoffs_getElem k' 100 i hi'

/-- The claim as stated is false of the code: in the client copy a
successful single-attempt call performs zero `min_delay_s` sleeps (so no
minimum delay is slept before every attempt), and in the main copy the
first backoff sleep after a transient 429 is a full 1.0 s (100
centiseconds), not a sub-second base. -/
theorem claim_C7_counterexample :
    (client_request defaultPipeCfg [Outcome.resp 200 5]).delaySleeps = 0 ∧
    (client_request defaultPipeCfg [Outcome.resp 200 5]).attempts = 1 ∧
    (main_request defaultPipeCfg
        [Outcome.resp 429 0, Outcome.resp 200 5]).backoffSleeps = [100] :=
  ⟨rfl, rfl, rfl⟩

/-- Concrete instance of claim C7 at the default configuration and a script
with one transient failure. -/
theorem claim_C7_witness :
    (1 ≤ defaultPipeCfg.max_retries) ∧
    (∃ k, (client_request defaultPipeCfg
          [Outcome.resp 503 0, Outcome.resp 200 5]).backoffSleeps =
        geomBackoffs defaultPipeCfg.min_delay_cs k ∧
      k + 1 = (client_request defaultPipeCfg
          [Outcome.resp 503 0, Outcome.resp 200 5]).attempts ∧
      (client_request defaultPipeCfg
          [Outcome.resp 503 0, Outcome.resp 200 5]).attempts ≤
        defaultPipeCfg.max_retries) ∧
    (∃ k, (main_request defaultPipeCfg
          [Outcome.resp 503 0, Outcome.resp 200 5]).backoffSleeps =
        geomBackoffs 100 k ∧
      k + 1 = (main_request defaultPipeCfg
          [Outcome.resp 503 0, Outcome.resp 200 5]).attempts ∧
      (main_request defaultPipeCfg
          [Outcome.resp 503 0, Outcome.resp 200 5]).attempts ≤
        defaultPipeCfg.max_retries ∧
      (main_request defaultPipeCfg
          [Outcome.resp 503 0, Outcome.resp 200 5]).delaySleeps =
        (main_request defaultPipeCfg
          [Outcome.resp 503 0, Outcome.resp 200 5]).attempts) :=
  ⟨by decide,
   (claim_C7 defaultPipeCfg [Outcome.resp 503 0, Outcome.resp 200 5] (by decide)).1,
   (claim_C7 defaultPipeCfg [Outcome.resp 503 0, Outcome.resp 200 5]
     (by decide)).2.2.2.1⟩

/-- Concrete instance of claim C10: an in-window item with an id but no
favourites data is recorded as 0 by both steps. -/
theorem claim_C10_witness :
    ((Deviation.mk (some 150) (some "d") none).favourites = none) ∧
    (truthyStr (Deviation.mk (some 150) (some "d") none).deviationid = true) ∧
    (mainItemStep emptyFavMap (Deviation.mk (some 150) (some "d") none) "d" =
      some (max ((emptyFavMap "d").getD 0) 0)) ∧
    (galleryItemStep 100 emptyFavMap (Deviation.mk (some 150) (some "d") none) "d" =
      some (max ((emptyFavMap "d").getD 0) 0)) ∧
    (mainItemStep emptyFavMap (Deviation.mk (some 150) (some "d") none) "d" =
      some 0) :=
  ⟨rfl, by decide,
   (claim_C10 100 emptyFavMap (Deviation.mk (some 150) (some "d") none) rfl
     (by decide)).1,
   (claim_C10 100 emptyFavMap (Deviation.mk (some 150) (some "d") none) rfl
     (by decide)).2.1 (by decide) (by decide),
   (claim_C10 100 emptyFavMap (Deviation.mk (some 150) (some "d") none) rfl
     (by decide)).2.2 rfl⟩
